import Mathlib

/-!
# Authentication and session handlers of `server.js`

A shallow embedding of the Express handlers of `src/server.js`:
`GET /`, `GET /dashboard`, `POST /register`, `POST /login`, `GET /logout`
and `POST /analyze`.

Modelling conventions.

* The MongoDB collection behind `User` is a list of records in insertion
  order.  `User.findOne` returns the first record that matches, `save`
  validates against `UserSchema`, enforces the unique index on `email` and
  appends.  The database itself is taken to be reachable.
* `req.body` is an object whose fields are either absent (`none`, the
  JavaScript `undefined`) or strings.  Other JSON values are outside the model.
* `req.session.user` of one client is `Option SessionUser`.  The cookie
  lifetime (`maxAge`) is not modelled: requests follow one another within the
  lifetime of the session.
* `bcryptjs` is a parameter (`Bcrypt`); the salt it draws, the clock read by
  `Date.now`, the results of `Math.random` and the outcome of the session
  store's `destroy` are supplied per request by `Env`.
* `_id` values are drawn from a counter kept in the state.
-/

namespace Server

/-! ## Numbers returned by `Math.random` -/

/-- A binary64 number in the range of `Math.random`: the value `m / 2 ^ k`. -/
structure UnitDouble where
  m : Nat
  k : Nat
  deriving DecidableEq, Repr

/-- The rational value of a `UnitDouble`. -/
def UnitDouble.toRat (d : UnitDouble) : ℚ := (d.m : ℚ) / 2 ^ d.k

/-- Well-formed results of `Math.random`: a significand of at most 53 bits, an
exponent no smaller than `-1074`, and a value below `1`. -/
def UnitDouble.valid (d : UnitDouble) : Prop :=
  d.m < 2 ^ 53 ∧ d.k ≤ 1074 ∧ d.m < 2 ^ d.k

instance (d : UnitDouble) : Decidable d.valid := by
  unfold UnitDouble.valid; infer_instance

/-- Number of binary digits of `n`, counting down on `fuel`. -/
def bitLenAux : Nat → Nat → Nat
  | 0, _ => 0
  | fuel + 1, n => if n = 0 then 0 else bitLenAux fuel (n / 2) + 1

/-- Number of binary digits of `n`. -/
def bitLen (n : Nat) : Nat := bitLenAux n n

/-- Round the natural number `n` to 53 significant bits, ties to even. -/
def roundSig53 (n : Nat) : Nat :=
  let s := bitLen n - 53
  let q := n / 2 ^ s
  let r := n % 2 ^ s
  if 2 * r < 2 ^ s then q * 2 ^ s
  else if 2 ^ s < 2 * r then (q + 1) * 2 ^ s
  else if q % 2 = 0 then q * 2 ^ s
  else (q + 1) * 2 ^ s

/-- `Math.floor(r * 100)` in binary64 arithmetic: the exact product
`100 * m / 2 ^ k` is rounded to 53 significant bits, ties to even, before the
floor is taken.  With `k` at most `1074` the rounded product is a binary64
number, so no further rounding occurs. -/
def floorTimes100 (r : UnitDouble) : Nat := roundSig53 (100 * r.m) / 2 ^ r.k

/-! ## Data model -/

/-- A document of the `User` collection (`UserSchema`, with its `_id`). -/
structure UserRecord where
  id : Nat
  fullName : String
  email : String
  password : String
  createdAt : Nat
  deriving DecidableEq, Repr

/-- The object stored in `req.session.user`. -/
structure SessionUser where
  id : Nat
  email : String
  fullName : String
  deriving DecidableEq, Repr

/-- Server state: the `User` collection, the counter behind `_id`, and the
session user of the client. -/
structure State where
  users : List UserRecord
  idCounter : Nat
  session : Option SessionUser
  deriving DecidableEq, Repr

/-- The state of a fresh server: empty collection, no session. -/
def State.init : State := ⟨[], 0, none⟩

/-- The `bcryptjs` functions used by the handlers: `hash s rounds salt` and
`compare s digest`.  A digest is never the empty string. -/
structure Bcrypt where
  hash : String → Nat → Nat → String
  compare : String → String → Bool
  hash_ne : ∀ s rounds salt, hash s rounds salt ≠ ""

/-- What a request takes from its environment. -/
structure Env where
  now : Nat
  salt : Nat
  random1 : UnitDouble
  random2 : UnitDouble
  destroyErr : Bool
  deriving DecidableEq, Repr

/-- Body of `POST /register`. -/
structure RegisterBody where
  fullName : Option String
  email : Option String
  password : Option String
  confirmPassword : Option String
  deriving DecidableEq, Repr

/-- Body of `POST /login`. -/
structure LoginBody where
  email : Option String
  password : Option String
  deriving DecidableEq, Repr

/-- Body of `POST /analyze`. -/
structure AnalyzeBody where
  video_url : Option String
  deriving DecidableEq, Repr

/-- The requests routed by `server.js`. -/
inductive Request where
  | index
  | dashboard
  | register (body : RegisterBody)
  | login (body : LoginBody)
  | logout
  | analyze (body : AnalyzeBody)
  deriving DecidableEq, Repr

/-- The object `analysisResult`. -/
structure AnalysisResult where
  status : String
  average_score : UnitDouble
  frames_analyzed : Nat
  graph_url : String
  deriving DecidableEq, Repr

/-- JSON bodies sent by the handlers. -/
inductive Body where
  | error (msg : String)
  | success (redirect : String)
  | analysis (result : AnalysisResult)
  deriving DecidableEq, Repr

/-- Responses: `res.status(s).json(b)`, `res.redirect(l)` (with the cookie
cleared just before, if any) and `res.sendFile(f)`. -/
inductive Response where
  | json (status : Nat) (body : Body)
  | redirect (location : String) (clearedCookie : Option String)
  | sendFile (file : String)
  deriving DecidableEq, Repr

/-! ## The collection -/

/-- `User.findOne` on an email: the first record with that email.  An absent
email is sent as `null`, which no stored record has. -/
def findOne (users : List UserRecord) : Option String → Option UserRecord
  | none => none
  | some e => users.find? (fun u => u.email == e)

/-- The `required: true` validator of a `String` path: present and not empty. -/
def checkRequired : Option String → Option String
  | none => none
  | some s => if s.length = 0 then none else some s

/-- `new User` on the three fields followed by `save()`: the document takes
the next `_id`, the three required paths are validated, then the document is
inserted under the unique index on `email`.  `none` stands for the rejected
promise. -/
def save (st : State) (now : Nat) (fullName email password : Option String) :
    Option (UserRecord × State) :=
  match checkRequired fullName, checkRequired email, checkRequired password with
  | some f, some e, some p =>
    if st.users.any (fun u => u.email == e) then none
    else
      let newUser : UserRecord := ⟨st.idCounter, f, e, p, now⟩
      some (newUser, ⟨st.users ++ [newUser], st.idCounter + 1, st.session⟩)
  | _, _, _ => none

/-! ## Handlers -/

/-- `bcrypt.hash(password, rounds)`: rejects when the password is no string. -/
def bcryptHash (B : Bcrypt) (password : Option String) (rounds salt : Nat) : Option String :=
  password.map (fun p => B.hash p rounds salt)

/-- `bcrypt.compare(password, digest)`: rejects when the password is no string. -/
def bcryptCompare (B : Bcrypt) (password : Option String) (digest : String) : Option Bool :=
  password.map (fun p => B.compare p digest)

/-- The session payload built from a record by `/register` and `/login`. -/
def sessionOf (u : UserRecord) : SessionUser := ⟨u.id, u.email, u.fullName⟩

/-- Handler of `GET /`. -/
def handleIndex (st : State) : State × Response :=
  (st, .sendFile "public/index.html")

/-- Handler of `GET /dashboard`. -/
def handleDashboard (st : State) : State × Response :=
  match st.session with
  | none => (st, .redirect "/" none)
  | some _ => (st, .sendFile "public/dashboard.html")

/-- Handler of `POST /register`. -/
def handleRegister (B : Bcrypt) (env : Env) (st : State) (body : RegisterBody) :
    State × Response :=
  if body.password ≠ body.confirmPassword then
    (st, .json 400 (.error "Les mots de passe ne correspondent pas"))
  else
    match findOne st.users body.email with
    | some _ => (st, .json 400 (.error "Cet email est déjà utilisé"))
    | none =>
      match bcryptHash B body.password 10 env.salt with
      | none => (st, .json 500 (.error "Erreur lors de l'inscription"))
      | some hashedPassword =>
        match save st env.now body.fullName body.email (some hashedPassword) with
        | none =>
          (⟨st.users, st.idCounter + 1, st.session⟩,
            .json 500 (.error "Erreur lors de l'inscription"))
        | some (newUser, st1) =>
          (⟨st1.users, st1.idCounter, some (sessionOf newUser)⟩,
            .json 200 (.success "/dashboard"))

/-- Handler of `POST /login`. -/
def handleLogin (B : Bcrypt) (st : State) (body : LoginBody) : State × Response :=
  match findOne st.users body.email with
  | none => (st, .json 400 (.error "Email ou mot de passe incorrect"))
  | some user =>
    match bcryptCompare B body.password user.password with
    | none => (st, .json 500 (.error "Erreur lors de la connexion"))
    | some false => (st, .json 400 (.error "Email ou mot de passe incorrect"))
    | some true =>
      (⟨st.users, st.idCounter, some (sessionOf user)⟩, .json 200 (.success "/dashboard"))

/-- Handler of `GET /logout`. -/
def handleLogout (env : Env) (st : State) : State × Response :=
  if env.destroyErr then (st, .json 500 (.error "Erreur lors de la déconnexion"))
  else (⟨st.users, st.idCounter, none⟩, .redirect "/" (some "connect.sid"))

/-- Handler of `POST /analyze`. -/
def handleAnalyze (env : Env) (st : State) (_body : AnalyzeBody) : State × Response :=
  match st.session with
  | none => (st, .json 401 (.error "Non autorisé"))
  | some _ =>
    let analysisResult : AnalysisResult :=
      ⟨"completed", env.random1, floorTimes100 env.random2 + 50, "/graphs/sample.png"⟩
    (st, .json 200 (.analysis analysisResult))

/-- One request handled by the server. -/
def handle (B : Bcrypt) (env : Env) (st : State) : Request → State × Response
  | .index => handleIndex st
  | .dashboard => handleDashboard st
  | .register body => handleRegister B env st body
  | .login body => handleLogin B st body
  | .logout => handleLogout env st
  | .analyze body => handleAnalyze env st body

/-- The state after a sequence of requests handled one after the other. -/
def run (B : Bcrypt) : List (Env × Request) → State → State
  | [], st => st
  | (env, req) :: rest, st => run B rest (handle B env st req).1

/-- No two records of the collection share an email. -/
def EmailsDistinct (users : List UserRecord) : Prop :=
  (users.map (fun u => u.email)).Nodup

instance (users : List UserRecord) : Decidable (EmailsDistinct users) := by
  unfold EmailsDistinct; infer_instance

/-- The body sent by `/register` and `/login` on success. -/
def successResponse : Response := .json 200 (.success "/dashboard")

/-- A small stand-in for `bcryptjs`, used to evaluate the handlers on concrete
requests: the digest is the password behind a fixed prefix. -/
def toyBcrypt : Bcrypt where
  hash := fun s _ _ => "$2a$" ++ s
  compare := fun s d => d == "$2a$" ++ s
  hash_ne := by
    intro s _ _ h
    have hl := congrArg String.length h
    rw [String.length_append] at hl
    have h4 : "$2a$".length = 4 := by decide
    have h0 : "".length = 0 := by decide
    omega

/-- An environment for concrete evaluations. -/
def env0 : Env := ⟨1000, 7, ⟨0, 1⟩, ⟨0, 1⟩, false⟩

/-- The record of Ann in the scenario of the specification. -/
def ann : UserRecord := ⟨0, "Ann", "a@x.com", "$2a$p1", 1000⟩

/-- A state holding Ann only, nobody logged in. -/
def stAnn : State := ⟨[ann], 1, none⟩

/-- The session holds a user: `/dashboard` serves the page and `/analyze`
answers with status 200 and an analysis result. -/
def SessionValid (B : Bcrypt) (st : State) : Prop :=
  ∀ env : Env, (handle B env st .dashboard).2 = .sendFile "public/dashboard.html" ∧
    ∀ body, ∃ result, (handle B env st (.analyze body)).2 = .json 200 (.analysis result)

/-- The session holds no user: `/dashboard` redirects to `/` and `/analyze`
answers with status 401. -/
def SessionInvalid (B : Bcrypt) (st : State) : Prop :=
  ∀ env : Env, (handle B env st .dashboard).2 = .redirect "/" none ∧
    ∀ body, (handle B env st (.analyze body)).2 = .json 401 (.error "Non autorisé")

/-- Neither a `/register` nor a `/login` of the sequence is answered with the
success body. -/
def noAuthSuccess (B : Bcrypt) : List (Env × Request) → State → Bool
  | [], _ => true
  | (env, req) :: rest, st =>
    (match req with
      | .register _ => decide ((handle B env st req).2 ≠ successResponse)
      | .login _ => decide ((handle B env st req).2 ≠ successResponse)
      | _ => true) &&
    noAuthSuccess B rest (handle B env st req).1

/-! ## Lemmas on the collection -/

theorem length_eq_zero_iff (s : String) : s.length = 0 ↔ s = "" := by
  cases s with
  | mk data =>
    constructor
    · intro h
      have hd : data = [] := List.length_eq_zero.mp h
      subst hd
      rfl
    · intro h
      rw [h]
      rfl

theorem checkRequired_of_ne (s : String) (h : s ≠ "") : checkRequired (some s) = some s := by
  have hl : s.length ≠ 0 := fun h0 => h ((length_eq_zero_iff s).mp h0)
  simp [checkRequired, hl]

theorem findOne_none_of_fresh (users : List UserRecord) (e : String)
    (h : ∀ u ∈ users, u.email ≠ e) : findOne users (some e) = none := by
  simp only [findOne, List.find?_eq_none]
  intro u hu
  simpa using h u hu

theorem findOne_isSome_of_mem (users : List UserRecord) (e : String)
    (h : ∃ u ∈ users, u.email = e) : ∃ v, findOne users (some e) = some v := by
  obtain ⟨u, hu, he⟩ := h
  cases hf : findOne users (some e) with
  | some v => exact ⟨v, rfl⟩
  | none =>
    simp only [findOne, List.find?_eq_none] at hf
    have := hf u hu
    simp [he] at this

theorem findOne_email (users : List UserRecord) (e : Option String) (u : UserRecord)
    (h : findOne users e = some u) : e = some u.email ∧ u ∈ users := by
  cases e with
  | none => simp [findOne] at h
  | some s =>
    simp only [findOne] at h
    have h1 := List.find?_some h
    have h2 := List.mem_of_find?_eq_some h
    simp at h1
    exact ⟨by rw [h1], h2⟩

theorem any_email_false_of_fresh (users : List UserRecord) (e : String)
    (h : ∀ u ∈ users, u.email ≠ e) : users.any (fun u => u.email == e) = false := by
  rw [Bool.eq_false_iff]
  intro hany
  rw [List.any_eq_true] at hany
  obtain ⟨u, hu, he⟩ := hany
  exact h u hu (by simpa using he)

theorem fresh_of_findOne_none (users : List UserRecord) (e : String)
    (h : findOne users (some e) = none) : ∀ u ∈ users, u.email ≠ e := by
  simp only [findOne, List.find?_eq_none] at h
  intro u hu
  simpa using h u hu

/-! ## Registration and login -/

/-- C4: a `/register` request whose `password` differs from `confirmPassword`
is answered with status 400 and the password-mismatch error, and the state
(collection, counter and session) is left as it was. -/
theorem register_password_mismatch (B : Bcrypt) (env : Env) (st : State) (body : RegisterBody)
    (h : body.password ≠ body.confirmPassword) :
    handle B env st (.register body)
      = (st, .json 400 (.error "Les mots de passe ne correspondent pas")) := by
  simp [handle, handleRegister, h]

/-- A `/register` with passwords `p1` and `p2` on the store holding Ann. -/
theorem register_password_mismatch_witness :
    (some "p1" : Option String) ≠ some "p2" ∧
    handle toyBcrypt env0 stAnn (.register ⟨some "Bob", some "b@x.com", some "p1", some "p2"⟩)
      = (stAnn, .json 400 (.error "Les mots de passe ne correspondent pas")) :=
  ⟨by decide, register_password_mismatch toyBcrypt env0 stAnn _ (by decide)⟩

/-- C2, as stated, fails: with a registered email but two different passwords
the answer is the password-mismatch error, not the email-taken error. -/
theorem register_taken_any_fields_counterexample :
    ¬ (∀ (B : Bcrypt) (env : Env) (st : State) (body : RegisterBody) (E : String),
        (∃ u ∈ st.users, u.email = E) → body.email = some E →
        (handle B env st (.register body)).2
          = .json 400 (.error "Cet email est déjà utilisé")) := by
  intro h
  have h1 := h toyBcrypt env0 stAnn ⟨some "Ann", some "a@x.com", some "p1", some "p2"⟩
    "a@x.com" ⟨ann, by decide, by decide⟩ rfl
  revert h1
  decide

/-- C2 amended: when the collection holds a record with email `E`, a
`/register` request with email `E` whose `password` and `confirmPassword`
agree is answered with status 400 and the email-taken error, whatever
`fullName` and the password are, and the state is left as it was. -/
theorem register_email_taken (B : Bcrypt) (env : Env) (st : State) (body : RegisterBody)
    (E : String) (hreg : ∃ u ∈ st.users, u.email = E) (hE : body.email = some E)
    (hpw : body.password = body.confirmPassword) :
    handle B env st (.register body)
      = (st, .json 400 (.error "Cet email est déjà utilisé")) := by
  obtain ⟨v, hv⟩ := findOne_isSome_of_mem st.users E hreg
  simp [handle, handleRegister, hpw, hE, hv]

/-- A second `/register` with Ann's email and matching passwords. -/
theorem register_email_taken_witness :
    (∃ u ∈ stAnn.users, u.email = "a@x.com") ∧
    handle toyBcrypt env0 stAnn (.register ⟨some "Bob", some "a@x.com", some "q", some "q"⟩)
      = (stAnn, .json 400 (.error "Cet email est déjà utilisé")) :=
  ⟨⟨ann, by decide, by decide⟩,
    register_email_taken toyBcrypt env0 stAnn _ "a@x.com" ⟨ann, by decide, by decide⟩ rfl rfl⟩

/-- The part of the indistinguishability of login failures that the handler
achieves: when the password sent is a string that `compare` rejects, a
`/login` with a registered email gets the same response as a `/login` with an
email that matches no record: status 400 and the error
`Email ou mot de passe incorrect`. -/
theorem login_failures_indistinguishable (B : Bcrypt) (env env2 : Env) (st : State)
    (E p : String) (u : UserRecord) (e2 p2 : Option String)
    (hreg : findOne st.users (some E) = some u)
    (hbad : B.compare p u.password = false)
    (hunreg : findOne st.users e2 = none) :
    (handle B env st (.login ⟨some E, some p⟩)).2 = (handle B env2 st (.login ⟨e2, p2⟩)).2 ∧
    (handle B env st (.login ⟨some E, some p⟩)).2
      = .json 400 (.error "Email ou mot de passe incorrect") := by
  simp [handle, handleLogin, hreg, hunreg, bcryptCompare, hbad]

/-- Ann's email with a wrong password against an unknown email. -/
theorem login_failures_indistinguishable_witness :
    (handle toyBcrypt env0 stAnn (.login ⟨some "a@x.com", some "wrong"⟩)).2
      = (handle toyBcrypt env0 stAnn (.login ⟨some "z@x.com", some "p1"⟩)).2 ∧
    (handle toyBcrypt env0 stAnn (.login ⟨some "a@x.com", some "wrong"⟩)).2
      = .json 400 (.error "Email ou mot de passe incorrect") :=
  login_failures_indistinguishable toyBcrypt env0 env0 stAnn "a@x.com" "wrong" ann
    (some "z@x.com") (some "p1") (by decide) (by decide) (by decide)

/-- C3 fails on a `/login` that carries no password.  On the store holding
Ann, with her registered email the lookup succeeds, `compare` rejects instead
of answering `false`, and the catch block answers status 500 with
`Erreur lors de la connexion`; with an email that matches no record the answer
is status 400 with `Email ou mot de passe incorrect`.  The two responses
differ, so the two causes of failure can be told apart. -/
theorem login_missing_password_distinguishable :
    findOne stAnn.users (some "a@x.com") = some ann ∧
    bcryptCompare toyBcrypt none ann.password = none ∧
    findOne stAnn.users (some "z@x.com") = none ∧
    (handle toyBcrypt env0 stAnn (.login ⟨some "a@x.com", none⟩)).2
      = .json 500 (.error "Erreur lors de la connexion") ∧
    (handle toyBcrypt env0 stAnn (.login ⟨some "z@x.com", none⟩)).2
      = .json 400 (.error "Email ou mot de passe incorrect") ∧
    (handle toyBcrypt env0 stAnn (.login ⟨some "a@x.com", none⟩)).2
      ≠ (handle toyBcrypt env0 stAnn (.login ⟨some "z@x.com", none⟩)).2 := by
  decide

theorem find?_append_fresh (users : List UserRecord) (e : String) (r : UserRecord)
    (h : ∀ u ∈ users, u.email ≠ e) (hr : r.email = e) :
    findOne (users ++ [r]) (some e) = some r := by
  have hn : List.find? (fun u => u.email == e) users = none := by
    simpa [findOne] using findOne_none_of_fresh users e h
  simp [findOne, List.find?_append, hn, hr]

/-- What `/register` does on a valid request with an unused email. -/
theorem handleRegister_fresh (B : Bcrypt) (env : Env) (st : State) (fullName E P : String)
    (hnew : ∀ u ∈ st.users, u.email ≠ E) (hname : fullName ≠ "") (hemail : E ≠ "") :
    handleRegister B env st ⟨some fullName, some E, some P, some P⟩
      = (⟨st.users ++ [⟨st.idCounter, fullName, E, B.hash P 10 env.salt, env.now⟩],
          st.idCounter + 1,
          some ⟨st.idCounter, E, fullName⟩⟩, successResponse) := by
  have h1 := findOne_none_of_fresh st.users E hnew
  have h2 := any_email_false_of_fresh st.users E hnew
  have h3 := checkRequired_of_ne fullName hname
  have h4 := checkRequired_of_ne E hemail
  have h5 := checkRequired_of_ne _ (B.hash_ne P 10 env.salt)
  simp [handleRegister, h1, bcryptHash, save, h2, h3, h4, h5, sessionOf, successResponse]

/-- C1, as stated, fails: an empty `fullName` is rejected by the schema when
the record is saved, and the request is answered with status 500. -/
theorem register_then_login_counterexample :
    ¬ (∀ (B : Bcrypt) (env env2 : Env) (st : State) (fullName E P : String),
        (∀ p rounds salt, B.compare p (B.hash p rounds salt) = true) →
        (∀ u ∈ st.users, u.email ≠ E) →
        (handle B env st (.register ⟨some fullName, some E, some P, some P⟩)).2
            = .json 200 (.success "/dashboard") ∧
        (handle B env2 (handle B env st (.register ⟨some fullName, some E, some P, some P⟩)).1
            (.login ⟨some E, some P⟩)).2 = .json 200 (.success "/dashboard")) := by
  intro h
  have h1 := (h toyBcrypt env0 env0 State.init "" "a@x.com" "p1"
    (by intro p _ _; simp [toyBcrypt]) (by intro u hu; simp [State.init] at hu)).1
  revert h1
  decide

/-- An empty email is rejected by the schema as an empty `fullName` is. -/
theorem register_empty_email :
    handle toyBcrypt env0 State.init (.register ⟨some "Ann", some "", some "p1", some "p1"⟩)
      = (⟨[], 1, none⟩, .json 500 (.error "Erreur lors de l'inscription")) := by
  decide

/-- C1 amended: when the collection holds no record with email `E`, and
`fullName` and `E` are not empty, a `/register` request with `fullName`, `E`,
a password `P` and `confirmPassword` equal to `P` is answered with
`success: true, redirect: "/dashboard"`, and a `/login` with `E` and `P` on
the resulting state gets the same answer, provided `compare` accepts every
password against its own digest. -/
theorem register_then_login (B : Bcrypt) (env env2 : Env) (st : State) (fullName E P : String)
    (hlaw : ∀ p rounds salt, B.compare p (B.hash p rounds salt) = true)
    (hnew : ∀ u ∈ st.users, u.email ≠ E) (hname : fullName ≠ "") (hemail : E ≠ "") :
    (handle B env st (.register ⟨some fullName, some E, some P, some P⟩)).2
        = .json 200 (.success "/dashboard") ∧
    (handle B env2 (handle B env st (.register ⟨some fullName, some E, some P, some P⟩)).1
        (.login ⟨some E, some P⟩)).2 = .json 200 (.success "/dashboard") := by
  have hr := handleRegister_fresh B env st fullName E P hnew hname hemail
  have hf := find?_append_fresh st.users E
    ⟨st.idCounter, fullName, E, B.hash P 10 env.salt, env.now⟩ hnew rfl
  simp only [handle, hr]
  refine ⟨rfl, ?_⟩
  simp [handleLogin, hf, bcryptCompare, hlaw]

/-- The scenario of the specification: Ann registers on the empty store, then logs in. -/
theorem register_then_login_witness :
    (handle toyBcrypt env0 State.init
        (.register ⟨some "Ann", some "a@x.com", some "p1", some "p1"⟩)).2
        = .json 200 (.success "/dashboard") ∧
    (handle toyBcrypt env0 (handle toyBcrypt env0 State.init
        (.register ⟨some "Ann", some "a@x.com", some "p1", some "p1"⟩)).1
        (.login ⟨some "a@x.com", some "p1"⟩)).2 = .json 200 (.success "/dashboard") :=
  register_then_login toyBcrypt env0 env0 State.init "Ann" "a@x.com" "p1"
    (by intro p _ _; simp [toyBcrypt]) (by intro u hu; simp [State.init] at hu)
    (by decide) (by decide)

/-! ## The effect of each handler on the state -/

theorem checkRequired_eq_some (x : Option String) (s : String)
    (h : checkRequired x = some s) : x = some s ∧ s ≠ "" := by
  cases x with
  | none => simp [checkRequired] at h
  | some t =>
    by_cases ht : t.length = 0
    · simp [checkRequired, ht] at h
    · simp only [checkRequired, ht, if_false, Option.some.injEq] at h
      subst h
      exact ⟨rfl, fun h0 => ht ((length_eq_zero_iff t).mpr h0)⟩

theorem save_eq_some (st : State) (now : Nat) (fullName email password : Option String)
    (r : UserRecord) (st1 : State) (h : save st now fullName email password = some (r, st1)) :
    ∃ f e p, fullName = some f ∧ email = some e ∧ password = some p ∧ f ≠ "" ∧ e ≠ "" ∧
      (∀ u ∈ st.users, u.email ≠ e) ∧ r = ⟨st.idCounter, f, e, p, now⟩ ∧
      st1 = ⟨st.users ++ [r], st.idCounter + 1, st.session⟩ := by
  unfold save at h
  cases hf : checkRequired fullName with
  | none => simp [hf] at h
  | some f =>
    cases he : checkRequired email with
    | none => simp [hf, he] at h
    | some e =>
      cases hp : checkRequired password with
      | none => simp [hf, he, hp] at h
      | some p =>
        simp only [hf, he, hp] at h
        by_cases hany : st.users.any (fun u => u.email == e) = true
        · simp [hany] at h
        · simp only [hany, Bool.false_eq_true, if_false, Option.some.injEq, Prod.mk.injEq] at h
          obtain ⟨hr, hs⟩ := h
          obtain ⟨hf1, hf2⟩ := checkRequired_eq_some _ _ hf
          obtain ⟨he1, he2⟩ := checkRequired_eq_some _ _ he
          obtain ⟨hp1, _⟩ := checkRequired_eq_some _ _ hp
          refine ⟨f, e, p, hf1, he1, hp1, hf2, he2, ?_, hr.symm, ?_⟩
          · intro u hu heq
            apply hany
            rw [List.any_eq_true]
            exact ⟨u, hu, by simpa using heq⟩
          · rw [← hs, ← hr]

/-- The two outcomes of `/register`: either the answer is not the success
body and collection and session are untouched, or the request was valid, a
record built from it was appended and the session user is that record. -/
theorem handleRegister_spec (B : Bcrypt) (env : Env) (st : State) (body : RegisterBody) :
    ((handleRegister B env st body).2 ≠ successResponse ∧
      (handleRegister B env st body).1.users = st.users ∧
      (handleRegister B env st body).1.session = st.session) ∨
    (∃ f e p, body = ⟨some f, some e, some p, some p⟩ ∧ f ≠ "" ∧ e ≠ "" ∧
      (∀ u ∈ st.users, u.email ≠ e) ∧
      handleRegister B env st body
        = (⟨st.users ++ [⟨st.idCounter, f, e, B.hash p 10 env.salt, env.now⟩],
            st.idCounter + 1, some ⟨st.idCounter, e, f⟩⟩, successResponse)) := by
  by_cases hpw : body.password = body.confirmPassword
  · cases hfind : findOne st.users body.email with
    | some v =>
      left
      simp [handleRegister, hpw, hfind, successResponse]
    | none =>
      cases hp : body.password with
      | none =>
        left
        have hc : body.confirmPassword = none := by rw [← hpw, hp]
        simp [handleRegister, hc, hp, hfind, bcryptHash, successResponse]
      | some p =>
        have hc : body.confirmPassword = some p := by rw [← hpw, hp]
        cases hs : save st env.now body.fullName body.email (some (B.hash p 10 env.salt)) with
        | none =>
          left
          simp [handleRegister, hc, hp, hfind, bcryptHash, hs, successResponse]
        | some res =>
          obtain ⟨r, st1⟩ := res
          right
          obtain ⟨f, e, q, hf, he, hq, hfne, hene, hfresh, hr, hst1⟩ := save_eq_some _ _ _ _ _ _ _ hs
          have hq2 : q = B.hash p 10 env.salt := by simpa using hq.symm
          subst hq2
          refine ⟨f, e, p, ?_, hfne, hene, hfresh, ?_⟩
          · cases body
            simp_all
          · simp [handleRegister, hc, hp, hfind, bcryptHash, hs, hst1, hr, sessionOf,
              successResponse]
  · left
    simp [handleRegister, hpw, successResponse]

/-- The two outcomes of `/login`: either the answer is not the success body
and the state is untouched, or a record with the request email was found and
the session user is that record. -/
theorem handleLogin_spec (B : Bcrypt) (st : State) (body : LoginBody) :
    ((handleLogin B st body).2 ≠ successResponse ∧ (handleLogin B st body).1 = st) ∨
    (∃ u p, findOne st.users body.email = some u ∧ body.password = some p ∧
      B.compare p u.password = true ∧
      handleLogin B st body = (⟨st.users, st.idCounter, some (sessionOf u)⟩, successResponse)) := by
  cases hfind : findOne st.users body.email with
  | none =>
    left
    simp [handleLogin, hfind, successResponse]
  | some u =>
    cases hp : body.password with
    | none =>
      left
      simp [handleLogin, hfind, hp, bcryptCompare, successResponse]
    | some p =>
      cases hc : B.compare p u.password with
      | false =>
        left
        simp [handleLogin, hfind, hp, bcryptCompare, hc, successResponse]
      | true =>
        right
        exact ⟨u, p, rfl, rfl, hc, by simp [handleLogin, hfind, hp, bcryptCompare, hc, successResponse]⟩

/-- Every handler either leaves the collection as it was, or is a `/register`
answered with the success body that appended one record with an unused email. -/
theorem handle_users_spec (B : Bcrypt) (env : Env) (st : State) (req : Request) :
    (handle B env st req).1.users = st.users ∨
    (∃ body r, req = .register body ∧ (∀ u ∈ st.users, u.email ≠ r.email) ∧
      (handle B env st req).1.users = st.users ++ [r] ∧
      (handle B env st req).2 = successResponse) := by
  cases req with
  | index => left; rfl
  | dashboard => left; simp only [handle, handleDashboard]; split <;> rfl
  | logout => left; simp only [handle, handleLogout]; split <;> rfl
  | analyze body => left; simp only [handle, handleAnalyze]; split <;> rfl
  | login body =>
    left
    rcases handleLogin_spec B st body with ⟨_, h⟩ | ⟨u, p, _, _, _, h⟩
    · simp only [handle, h]
    · simp only [handle, h]
  | register body =>
    rcases handleRegister_spec B env st body with ⟨_, h, _⟩ | ⟨f, e, p, _, _, _, hfresh, h⟩
    · left; simpa only [handle] using h
    · right
      exact ⟨body, ⟨st.idCounter, f, e, B.hash p 10 env.salt, env.now⟩, rfl, hfresh,
        by simp only [handle, h], by simp only [handle, h]⟩

theorem emailsDistinct_append (users : List UserRecord) (r : UserRecord)
    (h : EmailsDistinct users) (hfresh : ∀ u ∈ users, u.email ≠ r.email) :
    EmailsDistinct (users ++ [r]) := by
  unfold EmailsDistinct at *
  rw [List.map_append, List.nodup_append]
  refine ⟨h, by simp, ?_⟩
  intro a ha hb
  simp only [List.map_cons, List.map_nil, List.mem_singleton] at hb
  obtain ⟨u, hu, hue⟩ := List.mem_map.mp ha
  exact hfresh u hu (by rw [hue, hb])

theorem handle_emailsDistinct (B : Bcrypt) (env : Env) (st : State) (req : Request)
    (h : EmailsDistinct st.users) : EmailsDistinct (handle B env st req).1.users := by
  rcases handle_users_spec B env st req with h1 | ⟨_, r, _, hfresh, h1, _⟩
  · rw [h1]; exact h
  · rw [h1]; exact emailsDistinct_append st.users r h hfresh

theorem run_emailsDistinct (B : Bcrypt) (trace : List (Env × Request)) :
    ∀ st : State, EmailsDistinct st.users → EmailsDistinct (run B trace st).users := by
  induction trace with
  | nil => intro st h; exact h
  | cons step rest ih =>
    intro st h
    obtain ⟨env, req⟩ := step
    exact ih _ (handle_emailsDistinct B env st req h)

theorem run_users_prefix (B : Bcrypt) (trace : List (Env × Request)) :
    ∀ st : State, st.users <+: (run B trace st).users := by
  induction trace with
  | nil => intro st; exact List.prefix_refl _
  | cons step rest ih =>
    intro st
    obtain ⟨env, req⟩ := step
    refine List.IsPrefix.trans ?_ (ih _)
    rcases handle_users_spec B env st req with h1 | ⟨_, r, _, _, h1, _⟩
    · rw [h1]
    · rw [h1]; exact List.prefix_append _ _

/-! ## Invariants of the collection -/

/-- C5: if no two records of the collection share an email, the same holds
after any one request, and after any sequence of requests handled one after
the other; in particular it holds in every state reached from the empty
collection. -/
theorem emails_stay_distinct (B : Bcrypt) (env : Env) (st : State) (req : Request)
    (h : EmailsDistinct st.users) :
    EmailsDistinct (handle B env st req).1.users ∧
    (∀ trace, EmailsDistinct (run B trace st).users) ∧
    (∀ trace, EmailsDistinct (run B trace State.init).users) :=
  ⟨handle_emailsDistinct B env st req h,
    fun trace => run_emailsDistinct B trace st h,
    fun trace => run_emailsDistinct B trace State.init List.nodup_nil⟩

/-- Bob registers on the store holding Ann. -/
theorem emails_stay_distinct_witness :
    EmailsDistinct stAnn.users ∧
    EmailsDistinct (handle toyBcrypt env0 stAnn
      (.register ⟨some "Bob", some "b@x.com", some "q", some "q"⟩)).1.users :=
  ⟨by decide, (emails_stay_distinct toyBcrypt env0 stAnn _ (by decide)).1⟩

/-- C7: the collection is append-only.  For every state and request, the
records held before the request are, in order and unchanged, the first records
held after it; every request other than `/register` leaves the collection
exactly as it was; `/register` adds at most one record, and adds one only
when it answers with the success body.  Over any sequence of requests the
initial records stay as they were. -/
theorem store_append_only (B : Bcrypt) (env : Env) (st : State) (req : Request) :
    st.users <+: (handle B env st req).1.users ∧
    (∀ (i : Nat) (u : UserRecord), st.users[i]? = some u →
      (handle B env st req).1.users[i]? = some u) ∧
    ((∀ body, req ≠ .register body) → (handle B env st req).1.users = st.users) ∧
    ((handle B env st req).1.users = st.users ∨
      ((handle B env st req).2 = successResponse ∧
        ∃ r, (handle B env st req).1.users = st.users ++ [r])) ∧
    (∀ trace, st.users <+: (run B trace st).users) := by
  have hp : st.users <+: (handle B env st req).1.users := by
    rcases handle_users_spec B env st req with h1 | ⟨_, r, _, _, h1, _⟩
    · rw [h1]
    · rw [h1]; exact List.prefix_append _ _
  refine ⟨hp, ?_, ?_, ?_, fun trace => run_users_prefix B trace st⟩
  · intro i u hi
    obtain ⟨t, ht⟩ := hp
    rw [← ht]
    have hlt : i < st.users.length := by
      by_contra hge
      rw [List.getElem?_eq_none (by omega)] at hi
      cases hi
    rw [List.getElem?_append_left hlt]
    exact hi
  · intro hne
    rcases handle_users_spec B env st req with h1 | ⟨body, _, hreq, _, _, _⟩
    · exact h1
    · exact absurd hreq (hne body)
  · rcases handle_users_spec B env st req with h1 | ⟨_, r, _, _, h1, h2⟩
    · exact Or.inl h1
    · exact Or.inr ⟨h2, r, h1⟩

/-! ## Sessions -/

theorem sessionValid_of_some (B : Bcrypt) (st : State) (u : SessionUser)
    (h : st.session = some u) : SessionValid B st := by
  intro env
  refine ⟨by simp [handle, handleDashboard, h], fun body => ?_⟩
  exact ⟨⟨"completed", env.random1, floorTimes100 env.random2 + 50, "/graphs/sample.png"⟩,
    by simp only [handle, handleAnalyze, h]⟩

theorem sessionInvalid_of_none (B : Bcrypt) (st : State) (h : st.session = none) :
    SessionInvalid B st := by
  intro env
  exact ⟨by simp [handle, handleDashboard, h], fun body => by simp [handle, handleAnalyze, h]⟩

/-- A request that is not a successful `/register` or `/login` keeps an empty
session empty. -/
theorem handle_session_none (B : Bcrypt) (env : Env) (st : State) (req : Request)
    (h : st.session = none)
    (hq : noAuthSuccess B [(env, req)] st = true) : (handle B env st req).1.session = none := by
  cases req with
  | index => exact h
  | dashboard => simp only [handle, handleDashboard]; split <;> exact h
  | logout => simp only [handle, handleLogout]; split <;> first | exact h | rfl
  | analyze body => simp only [handle, handleAnalyze]; split <;> exact h
  | login body =>
    simp only [noAuthSuccess, Bool.and_true, decide_eq_true_eq] at hq
    rcases handleLogin_spec B st body with ⟨_, h1⟩ | ⟨u, p, _, _, _, h1⟩
    · simp only [handle, h1]; exact h
    · exact absurd (by simp only [handle, h1]) hq
  | register body =>
    simp only [noAuthSuccess, Bool.and_true, decide_eq_true_eq] at hq
    rcases handleRegister_spec B env st body with ⟨_, _, h1⟩ | ⟨f, e, p, _, _, _, _, h1⟩
    · simp only [handle]; rw [h1]; exact h
    · exact absurd (by simp only [handle, h1]) hq

theorem run_session_none (B : Bcrypt) (trace : List (Env × Request)) :
    ∀ st : State, st.session = none → noAuthSuccess B trace st = true →
      (run B trace st).session = none := by
  induction trace with
  | nil => intro st h _; exact h
  | cons step rest ih =>
    intro st h hq
    obtain ⟨env, req⟩ := step
    have hq2 : noAuthSuccess B [(env, req)] st = true ∧
        noAuthSuccess B rest (handle B env st req).1 = true := by
      simp only [noAuthSuccess, Bool.and_eq_true] at hq ⊢
      exact ⟨⟨hq.1, trivial⟩, hq.2⟩
    exact ih _ (handle_session_none B env st req h hq2.1) hq2.2

/-- C6: after a `/register` or a `/login` answered with the success body the
session is valid: `/dashboard` serves the page and `/analyze` answers with a
result, not with 401.  After a `/logout` answered with the redirect to `/`
the session is invalid: `/dashboard` redirects to `/` and `/analyze` answers
401, and it stays invalid over any further requests among which no
`/register` and no `/login` is answered with the success body. -/
theorem session_lifecycle (B : Bcrypt) (env : Env) (st : State) :
    (∀ body, (handle B env st (.register body)).2 = successResponse →
      SessionValid B (handle B env st (.register body)).1) ∧
    (∀ body, (handle B env st (.login body)).2 = successResponse →
      SessionValid B (handle B env st (.login body)).1) ∧
    ((handle B env st .logout).2 = .redirect "/" (some "connect.sid") →
      SessionInvalid B (handle B env st .logout).1 ∧
      ∀ trace, noAuthSuccess B trace (handle B env st .logout).1 = true →
        SessionInvalid B (run B trace (handle B env st .logout).1)) := by
  refine ⟨?_, ?_, ?_⟩
  · intro body hs
    rcases handleRegister_spec B env st body with ⟨h1, _⟩ | ⟨f, e, p, _, _, _, _, h1⟩
    · exact absurd hs h1
    · exact sessionValid_of_some B _ ⟨st.idCounter, e, f⟩ (by simp only [handle, h1])
  · intro body hs
    rcases handleLogin_spec B st body with ⟨h1, _⟩ | ⟨u, p, _, _, _, h1⟩
    · exact absurd hs h1
    · exact sessionValid_of_some B _ (sessionOf u) (by simp only [handle, h1])
  · intro hs
    have hnone : (handle B env st .logout).1.session = none := by
      by_cases hd : env.destroyErr = true
      · simp [handle, handleLogout, hd] at hs
      · simp [handle, handleLogout, hd]
    exact ⟨sessionInvalid_of_none B _ hnone,
      fun trace hq => sessionInvalid_of_none B _ (run_session_none B trace _ hnone hq)⟩

/-- Ann registers; Ann logs in; Ann logs out, fails a login and asks for the dashboard. -/
theorem session_lifecycle_witness :
    SessionValid toyBcrypt (handle toyBcrypt env0 State.init
      (.register ⟨some "Ann", some "a@x.com", some "p1", some "p1"⟩)).1 ∧
    SessionValid toyBcrypt (handle toyBcrypt env0 stAnn
      (.login ⟨some "a@x.com", some "p1"⟩)).1 ∧
    SessionInvalid toyBcrypt (run toyBcrypt
      [(env0, .login ⟨some "a@x.com", some "wrong"⟩), (env0, .dashboard)]
      (handle toyBcrypt env0 ⟨[ann], 1, some (sessionOf ann)⟩ .logout).1) :=
  ⟨(session_lifecycle toyBcrypt env0 State.init).1 _ (by decide),
    (session_lifecycle toyBcrypt env0 stAnn).2.1 _ (by decide),
    ((session_lifecycle toyBcrypt env0 ⟨[ann], 1, some (sessionOf ann)⟩).2.2 (by decide)).2 _
      (by decide)⟩

/-- The session left by `/register` depends on neither the password, the salt
nor the clock. -/
theorem register_session_indep (B : Bcrypt) (env env2 : Env) (st : State)
    (f e : Option String) (p q : String) :
    (handle B env st (.register ⟨f, e, some p, some p⟩)).1.session
      = (handle B env2 st (.register ⟨f, e, some q, some q⟩)).1.session := by
  have hp := checkRequired_of_ne _ (B.hash_ne p 10 env.salt)
  have hq := checkRequired_of_ne _ (B.hash_ne q 10 env2.salt)
  simp only [handle, handleRegister, bcryptHash, save, Option.map_some', hp, hq, ne_eq,
    not_true_eq_false, if_false]
  cases findOne st.users e with
  | some v => rfl
  | none =>
    cases checkRequired f with
    | none => rfl
    | some f1 =>
      cases checkRequired e with
      | none => rfl
      | some e1 =>
        cases hany : st.users.any (fun u => u.email == e1) with
        | true => simp [hany]
        | false => simp [hany, sessionOf]

/-- C9: when a request is answered with the success body of `/login` or
`/register`, then for a `/login` the session user is the id, email and
fullName of the stored record found for the request email; for a
`/register` one record is appended, made of the next id, the request
fullName and email, the digest `hash(password, 10)` and the current time, and
the session user is the id, email and fullName of that record.  The session
payload is the same whatever digest the record holds, and the session left
by a `/register` is the same whatever password is sent. -/
theorem session_payload (B : Bcrypt) (env : Env) (st : State) (req : Request)
    (hs : (handle B env st req).2 = successResponse) :
    (∀ body, req = .login body →
      ∃ u, findOne st.users body.email = some u ∧ u ∈ st.users ∧ body.email = some u.email ∧
        (handle B env st req).1.session = some ⟨u.id, u.email, u.fullName⟩) ∧
    (∀ body, req = .register body →
      ∃ f e p r, body.fullName = some f ∧ body.email = some e ∧ body.password = some p ∧
        r = ⟨st.idCounter, f, e, B.hash p 10 env.salt, env.now⟩ ∧
        (handle B env st req).1.users = st.users ++ [r] ∧
        (handle B env st req).1.session = some ⟨r.id, r.email, r.fullName⟩) ∧
    (∀ (u : UserRecord) (digest : String),
      sessionOf ⟨u.id, u.fullName, u.email, digest, u.createdAt⟩ = sessionOf u) ∧
    (∀ (f e : Option String) (p q : String) (env2 : Env),
      (handle B env st (.register ⟨f, e, some p, some p⟩)).1.session
        = (handle B env2 st (.register ⟨f, e, some q, some q⟩)).1.session) := by
  refine ⟨?_, ?_, fun u digest => rfl, fun f e p q env2 => register_session_indep B env env2 st f e p q⟩
  · intro body hreq
    subst hreq
    rcases handleLogin_spec B st body with ⟨h1, _⟩ | ⟨u, p, hf, _, _, h1⟩
    · exact absurd hs h1
    · obtain ⟨he, hu⟩ := findOne_email st.users body.email u hf
      exact ⟨u, hf, hu, he, by simp only [handle, h1, sessionOf]⟩
  · intro body hreq
    subst hreq
    rcases handleRegister_spec B env st body with ⟨h1, _⟩ | ⟨f, e, p, hb, _, _, _, h1⟩
    · exact absurd hs h1
    · refine ⟨f, e, p, _, by rw [hb], by rw [hb], by rw [hb], rfl, ?_, ?_⟩
      · simp only [handle, h1]
      · simp only [handle, h1]

/-- Ann logs in: the session holds her id, email and name. -/
theorem session_payload_witness :
    (handle toyBcrypt env0 stAnn (.login ⟨some "a@x.com", some "p1"⟩)).1.session
      = some ⟨0, "a@x.com", "Ann"⟩ := by
  obtain ⟨u, hf, _, _, h⟩ :=
    (session_payload toyBcrypt env0 stAnn (.login ⟨some "a@x.com", some "p1"⟩)
      (by decide)).1 _ rfl
  have hu : u = ann := by
    have : findOne stAnn.users (some "a@x.com") = some ann := by decide
    rw [this] at hf
    exact (Option.some.inj hf).symm
  rw [h, hu]
  rfl

/-! ## The analysis stub -/

theorem bitLenAux_zero (fuel : Nat) : bitLenAux fuel 0 = 0 := by
  cases fuel <;> simp [bitLenAux]

theorem lt_two_pow_bitLenAux (fuel : Nat) :
    ∀ n : Nat, n ≤ fuel → n < 2 ^ bitLenAux fuel n := by
  induction fuel with
  | zero => intro n h; simp [bitLenAux]; omega
  | succ fuel ih =>
    intro n h
    by_cases hn : n = 0
    · simp [bitLenAux, hn]
    · have := ih (n / 2) (by omega)
      simp only [bitLenAux, hn, if_false, pow_succ]
      omega

theorem two_pow_bitLenAux_le (fuel : Nat) :
    ∀ n : Nat, n ≠ 0 → n ≤ fuel → 2 ^ (bitLenAux fuel n - 1) ≤ n := by
  induction fuel with
  | zero => intro n hn h; omega
  | succ fuel ih =>
    intro n hn h
    simp only [bitLenAux, hn, if_false, Nat.add_sub_cancel]
    by_cases h2 : n / 2 = 0
    · rw [h2, bitLenAux_zero]
      simp
      omega
    · have h1 := ih (n / 2) h2 (by omega)
      have hpos : bitLenAux fuel (n / 2) ≠ 0 := by
        cases fuel with
        | zero => omega
        | succ f => simp [bitLenAux, h2]
      have hsplit : 2 ^ bitLenAux fuel (n / 2) = 2 ^ (bitLenAux fuel (n / 2) - 1) * 2 := by
        rw [← pow_succ]
        congr 1
        omega
      omega

/-- The function `bitLen` is the length of the binary expansion: a number other than `0`
lies between `2 ^ (bitLen n - 1)` and `2 ^ bitLen n`. -/
theorem bitLen_spec (n : Nat) (hn : n ≠ 0) : 2 ^ (bitLen n - 1) ≤ n ∧ n < 2 ^ bitLen n :=
  ⟨two_pow_bitLenAux_le n n hn (Nat.le_refl n), lt_two_pow_bitLenAux n n (Nat.le_refl n)⟩

theorem bitLenAux_le (fuel : Nat) : ∀ n b : Nat, n < 2 ^ b → bitLenAux fuel n ≤ b := by
  induction fuel with
  | zero => intro n b _; simp [bitLenAux]
  | succ fuel ih =>
    intro n b h
    by_cases hn : n = 0
    · simp [bitLenAux, hn]
    · cases b with
      | zero => simp at h; exact absurd h hn
      | succ b =>
        have hhalf : n / 2 < 2 ^ b := by
          rw [Nat.div_lt_iff_lt_mul (by decide)]
          rw [pow_succ] at h
          exact h
        have := ih (n / 2) b hhalf
        simp only [bitLenAux, hn, if_false]
        omega

/-- Rounding to nearest moves a number up by at most half a unit in the last
place. -/
theorem roundSig53_le (n : Nat) : 2 * roundSig53 n ≤ 2 * n + 2 ^ (bitLen n - 53) := by
  have hdm := Nat.div_add_mod n (2 ^ (bitLen n - 53))
  have hcomm : 2 ^ (bitLen n - 53) * (n / 2 ^ (bitLen n - 53))
      = n / 2 ^ (bitLen n - 53) * 2 ^ (bitLen n - 53) := Nat.mul_comm _ _
  simp only [roundSig53]
  generalize 2 ^ (bitLen n - 53) = t at *
  generalize n / t = q at *
  generalize n % t = r at *
  generalize hqt : q * t = qt at *
  have hq1 : (q + 1) * t = qt + t := by rw [Nat.add_mul, hqt, Nat.one_mul]
  split
  · omega
  · split
    · rw [hq1]; omega
    · split
      · omega
      · rw [hq1]; omega

/-- The binary64 product of a draw below `1` and `100` stays below `100`. -/
theorem floorTimes100_le (r : UnitDouble) (h : r.valid) : floorTimes100 r ≤ 99 := by
  obtain ⟨h53, _, hk⟩ := h
  have hN : 100 * r.m < 2 ^ 60 := by
    have : (2 : Nat) ^ 60 = 128 * 2 ^ 53 := by norm_num
    omega
  have hs : bitLen (100 * r.m) - 53 ≤ 7 := by
    have := bitLenAux_le (100 * r.m) (100 * r.m) 60 hN
    unfold bitLen
    omega
  have hpow : 2 ^ (bitLen (100 * r.m) - 53) ≤ 128 := by
    calc 2 ^ (bitLen (100 * r.m) - 53) ≤ 2 ^ 7 := Nat.pow_le_pow_right (by decide) hs
      _ = 128 := by norm_num
  have hr := roundSig53_le (100 * r.m)
  have hlt : roundSig53 (100 * r.m) < 100 * 2 ^ r.k := by
    have hpos : 0 < 2 ^ r.k := Nat.two_pow_pos _
    omega
  unfold floorTimes100
  have : roundSig53 (100 * r.m) / 2 ^ r.k < 100 := by
    rw [Nat.div_lt_iff_lt_mul (Nat.two_pow_pos _)]
    exact hlt
  omega

theorem toRat_unit (r : UnitDouble) (h : r.valid) : 0 ≤ r.toRat ∧ r.toRat < 1 := by
  obtain ⟨_, _, hk⟩ := h
  unfold UnitDouble.toRat
  have hpos : (0 : ℚ) < 2 ^ r.k := by positivity
  refine ⟨by positivity, ?_⟩
  rw [div_lt_one hpos]
  exact_mod_cast hk

/-- The product is the binary64 one: for this draw it is rounded up to `67`,
while the exact product lies below `67`. -/
theorem floorTimes100_rounds_up :
    UnitDouble.valid ⟨6034823500676464, 53⟩ ∧
    floorTimes100 ⟨6034823500676464, 53⟩ = 67 ∧
    100 * UnitDouble.toRat ⟨6034823500676464, 53⟩ < 67 := by
  refine ⟨by decide, by decide, ?_⟩
  norm_num [UnitDouble.toRat]

/-- C8: `/analyze` answers with status 401 exactly when the session holds no
user, and then with the error `Non autorisé`; when the session holds a user
it answers with status 200 and a result whose status is `completed` and whose
graph_url is `/graphs/sample.png`; for the same state and the same random
draws the outcome is the same whatever `video_url` is. -/
theorem analyze_authorisation (B : Bcrypt) (env : Env) (st : State) (body : AnalyzeBody) :
    ((∃ b, (handle B env st (.analyze body)).2 = .json 401 b) ↔ st.session = none) ∧
    (st.session = none →
      (handle B env st (.analyze body)).2 = .json 401 (.error "Non autorisé")) ∧
    (st.session ≠ none → ∃ score frames,
      (handle B env st (.analyze body)).2
        = .json 200 (.analysis ⟨"completed", score, frames, "/graphs/sample.png"⟩)) ∧
    (∀ body2, handle B env st (.analyze body) = handle B env st (.analyze body2)) := by
  cases hsess : st.session with
  | none => simp [handle, handleAnalyze, hsess]
  | some u => simp [handle, handleAnalyze, hsess]

/-- C10: for an authorised `/analyze` and draws `r1`, `r2` of `Math.random`,
the result has average_score `r1`, which lies in `[0, 1)`, and
frames_analyzed `Math.floor(r2 * 100) + 50`, which lies between 50 and 149;
the draw `0` gives 50 and the largest draw below `1` gives 149. -/
theorem analyze_numbers (B : Bcrypt) (env : Env) (st : State) (body : AnalyzeBody)
    (hsess : st.session ≠ none) (h1 : env.random1.valid) (h2 : env.random2.valid) :
    (∃ result, (handle B env st (.analyze body)).2 = .json 200 (.analysis result) ∧
      result.average_score = env.random1 ∧
      0 ≤ result.average_score.toRat ∧ result.average_score.toRat < 1 ∧
      result.frames_analyzed = floorTimes100 env.random2 + 50 ∧
      50 ≤ result.frames_analyzed ∧ result.frames_analyzed ≤ 149) ∧
    (∃ r : UnitDouble, r.valid ∧ floorTimes100 r + 50 = 50) ∧
    (∃ r : UnitDouble, r.valid ∧ floorTimes100 r + 50 = 149) := by
  refine ⟨?_, ⟨⟨0, 1⟩, by decide, by decide⟩, ⟨⟨2 ^ 53 - 1, 53⟩, by decide, by decide⟩⟩
  cases hs : st.session with
  | none => exact absurd hs hsess
  | some u =>
    refine ⟨⟨"completed", env.random1, floorTimes100 env.random2 + 50, "/graphs/sample.png"⟩,
      by simp only [handle, handleAnalyze, hs], rfl, (toRat_unit _ h1).1, (toRat_unit _ h1).2,
      rfl, by simp, ?_⟩
    have := floorTimes100_le env.random2 h2
    simp only
    omega

/-- An authorised `/analyze` with draws `1/4` and `1 - 2 ^ (-53)`. -/
theorem analyze_numbers_witness :
    ∃ result, (handle toyBcrypt ⟨1000, 7, ⟨1, 2⟩, ⟨2 ^ 53 - 1, 53⟩, false⟩
        ⟨[ann], 1, some (sessionOf ann)⟩ (.analyze ⟨some "v.mp4"⟩)).2
          = .json 200 (.analysis result) ∧
      result.average_score = ⟨1, 2⟩ ∧ result.frames_analyzed = 149 := by
  obtain ⟨result, hr, ha, _, _, hf, _, _⟩ :=
    (analyze_numbers toyBcrypt ⟨1000, 7, ⟨1, 2⟩, ⟨2 ^ 53 - 1, 53⟩, false⟩
      ⟨[ann], 1, some (sessionOf ann)⟩ ⟨some "v.mp4"⟩ (by decide) (by decide) (by decide)).1
  refine ⟨result, hr, ha, ?_⟩
  rw [hf]
  decide

end Server
